import Mathlib

/-!
Shallow embedding of the two loading-spinner widgets of this repository.

`WidgetA` embeds the RenderController-based spinner (src/unnamed/part_000):
a list of tick StateModifiers, a run-state flag, and a self-rescheduling
one-shot timer whose callback `incrementSpinner` rotates the list and
reassigns opacities.

`WidgetB` embeds src/Spinner.js: fixed spin-line modifiers, a recurring
interval timer whose callback recomputes every opacity from a phase
counter `t`, plus `fade`, `reset`, `stop`.

Opacities and angles are modelled as exact rationals; timers are modelled
explicitly (a pending-timeout counter for WidgetA's setTimeout chain, a
list of live interval registrations for WidgetB's setInterval).
-/

namespace WidgetA

/-- Opacity formula `i / this.options.ticks + 0.1`, used at construction
(part_000 line 63) and in `incrementSpinner` (line 141). -/
def tickOpacity (i n : ℕ) : ℚ := (i : ℚ) / (n : ℚ) + 1/10

/-- Angular position of tick `i` in degrees: `angleIncrement * i` with
`angleIncrement = 360 / this.options.ticks` (part_000 lines 49, 56-57). -/
def angleDeg (n i : ℕ) : ℚ := (360 / (n : ℚ)) * (i : ℚ)

/-- One tick mark: `idx` is the construction index (identifying the
opacityModifier/surface pair), `angle` its fixed angular position in
degrees, `opacity` the current opacity of its StateModifier. -/
structure Tick where
  idx : ℕ
  angle : ℚ
  opacity : ℚ
  deriving DecidableEq, Repr

/-- Tick `i` as built by the constructor loop (part_000 lines 54-73). -/
def initTick (n i : ℕ) : Tick :=
  { idx := i, angle := angleDeg n i, opacity := tickOpacity i n }

/-- State of the part_000 spinner.  `mods` is `this.tickOpacityModifiers`
in current list order; `pending` counts scheduled `incrementSpinner`
timeouts (the code stores no handle for them and never cancels them). -/
structure Spinner where
  ticks : ℕ
  mods : List Tick
  spinnerState : Bool
  visible : Bool
  pending : ℕ
  deriving DecidableEq, Repr

/-- Constructor (part_000 lines 40-74): build `ticks` tick elements,
run state OFF, nothing scheduled. -/
def mkSpinner (n : ℕ) : Spinner :=
  { ticks := n
    mods := (List.range n).map (initTick n)
    spinnerState := false
    visible := false
    pending := 0 }

/-- `start` (part_000 lines 114-118): set state ON, show the render node,
schedule one `incrementSpinner` timeout. -/
def start (s : Spinner) : Spinner :=
  { s with spinnerState := true, visible := true, pending := s.pending + 1 }

/-- `stop` (part_000 lines 125-128): set state OFF and hide.  No timer
handle is cleared and `pending` is untouched. -/
def stop (s : Spinner) : Spinner :=
  { s with spinnerState := false, visible := false }

/-- `this.tickOpacityModifiers.push(this.tickOpacityModifiers.shift())`
(part_000 line 139): move the first element to the end. -/
def rotateShift : List Tick → List Tick
  | [] => []
  | x :: xs => xs ++ [x]

/-- The reassignment loop of `incrementSpinner` (part_000 lines 140-142):
element at position `k` receives opacity `k / this.options.ticks + 0.1`. -/
def reassignOpacities (n : ℕ) : ℕ → List Tick → List Tick
  | _, [] => []
  | k, tk :: rest =>
      { tk with opacity := tickOpacity k n } :: reassignOpacities n (k+1) rest

/-- One scheduled `incrementSpinner` timeout fires (part_000 lines
138-146): if a timeout is pending, consume it, rotate the list, reassign
all opacities, and reschedule only when the run state is still ON. -/
def fireTick (s : Spinner) : Spinner :=
  if s.pending = 0 then s
  else
    { s with
      mods := reassignOpacities s.ticks 0 (rotateShift s.mods)
      pending := (s.pending - 1) + (if s.spinnerState then 1 else 0) }

/-- Current opacity of the element constructed with index `j`, found by
identity rather than list position. -/
def opacityOfIdx (s : Spinner) (j : ℕ) : Option ℚ :=
  (s.mods.find? (fun tk => tk.idx == j)).map Tick.opacity

/-- The spinner after `start()` and `t` firings of the scheduled
`incrementSpinner` timeouts. -/
def runA (n t : ℕ) : Spinner := fireTick^[t] (start (mkSpinner n))

end WidgetA

namespace WidgetB

/-- Opacity formula `_spinLineOpacity(i, t, count)` (Spinner.js lines
89-92): `pos = 1 - ((count - i + t) % count) / count` and the result is
`pos * pos * 0.9 + 0.1`.  At every call site `i < count`, so natural
subtraction agrees with the source arithmetic. -/
def spinLineOpacity (i t count : ℕ) : ℚ :=
  let pos : ℚ := 1 - (((count - i + t) % count : ℕ) : ℚ) / (count : ℚ)
  pos * pos * (9/10) + 1/10

/-- Rotation coefficient of spin line `i`: `rotateZ(rotationOffset * i)`
with `rotationOffset = 2π / count` (Spinner.js lines 63, 74-76), recorded
as the rational multiple `2 * i / count` of π. -/
def rotationOfPi (count i : ℕ) : ℚ := 2 * (i : ℚ) / (count : ℚ)

/-- One live `Timer.setInterval` registration created by `start`
(Spinner.js lines 137-146): its handle, the closure-local counter `t`,
and the captured `count = this.spinLineModifiers.length`. -/
structure Interval where
  handle : ℕ
  tCounter : ℕ
  count : ℕ
  deriving DecidableEq, Repr

/-- One animated `setOpacity(0, options, …)` issued by `fade` (Spinner.js
line 114): target opacity, duration, and the attached completion callback
(`some cb` models `this.stop.bind(this, cb)`, `none` models `null`). -/
structure FadeAnim where
  target : ℚ
  duration : ℕ
  completion : Option Bool
  deriving DecidableEq, Repr

/-- State of the Spinner.js spinner.  `spinLineOps` / `rotateOps` are the
current opacities of `this.spinLineModifiers` / `this.rotateModifiers`
(positions fixed, never reordered); `intervals` holds the live interval
timers, `spinInterval` the handle stored in `this.spinInterval`;
`cbCount` counts completed user-callback invocations; `anims` the fade
animations currently in flight. -/
structure Spinner where
  lines : ℕ
  fadeDuration : ℕ
  spinLineOps : List ℚ
  rotateOps : List ℚ
  rotations : List ℚ
  intervals : List Interval
  spinInterval : Option ℕ
  nextHandle : ℕ
  cbCount : ℕ
  anims : List FadeAnim
  deriving DecidableEq, Repr

/-- Constructor (Spinner.js lines 37-41, 58-87): `lines` spin-line
modifiers with opacity `_spinLineOpacity(i, 0, count)`, rotate modifiers
at default opacity 1, no timer running.  `fadeDuration` defaults to 1000
(DEFAULT_OPTIONS, line 54). -/
def mkSpinner (n : ℕ) : Spinner :=
  { lines := n
    fadeDuration := 1000
    spinLineOps := (List.range n).map (fun i => spinLineOpacity i 0 n)
    rotateOps := List.replicate n 1
    rotations := (List.range n).map (rotationOfPi n)
    intervals := []
    spinInterval := none
    nextHandle := 0
    cbCount := 0
    anims := [] }

/-- `start` (Spinner.js lines 137-146): register a fresh interval whose
closure captures `count = this.spinLineModifiers.length` and `t = 0`, and
store its handle in `this.spinInterval`.  A previously stored handle is
overwritten without being cleared. -/
def start (s : Spinner) : Spinner :=
  { s with
    intervals := s.intervals ++ [⟨s.nextHandle, 0, s.spinLineOps.length⟩]
    spinInterval := some s.nextHandle
    nextHandle := s.nextHandle + 1 }

/-- `stop(cb)` (Spinner.js lines 154-160): clear the interval stored in
`this.spinInterval` (if any), then invoke the callback when given.
`this.spinInterval` itself is not reset. -/
def stop (cb : Bool) (s : Spinner) : Spinner :=
  { s with
    intervals :=
      match s.spinInterval with
      | none => s.intervals
      | some h => s.intervals.filter (fun itv => itv.handle ≠ h)
    cbCount := s.cbCount + (if cb then 1 else 0) }

/-- The interval registered in `this.spinInterval` fires (the callback of
Spinner.js lines 140-145): set `spinLineModifiers[i]` to
`_spinLineOpacity(i, t, count)` for `i < count`, then increment the
closure counter `t`.  The captured `count` equals the list length
throughout (the list length never changes), so the loop rewrites the
whole opacity list. -/
def fireTick (s : Spinner) : Spinner :=
  match s.spinInterval with
  | none => s
  | some h =>
    match s.intervals.find? (fun itv => itv.handle == h) with
    | none => s
    | some itv =>
      { s with
        spinLineOps :=
          (List.range itv.count).map (fun i => spinLineOpacity i itv.tCounter itv.count)
        intervals :=
          s.intervals.map (fun j => if j.handle = h then { j with tCounter := j.tCounter + 1 } else j) }

/-- `reset(cb)` (Spinner.js lines 168-175): restore every spin-line
opacity to `_spinLineOpacity(i, 0, count)`, set every rotate modifier's
opacity to 1, then `stop(cb)`. -/
def reset (cb : Bool) (s : Spinner) : Spinner :=
  let count := s.spinLineOps.length
  stop cb
    { s with
      spinLineOps := (List.range count).map (fun i => spinLineOpacity i 0 count)
      rotateOps := s.rotateOps.map (fun _ => 1) }

/-- Body of `fade` after argument resolution (Spinner.js lines 108-115):
animate every rotate modifier to opacity 0 over the given duration,
attaching the completion `this.stop.bind(this, cb)` only at index 0. -/
def fade (dur : ℕ) (cb : Bool) (s : Spinner) : Spinner :=
  { s with
    anims :=
      (List.range s.rotateOps.length).map
        (fun i => { target := 0, duration := dur
                    completion := if i = 0 then some cb else none }) }

/-- One fade animation reaches its end: if a completion callback is
attached (a bound `stop(cb)`), it runs; otherwise nothing happens. -/
def runCompletion (acc : Spinner) (a : FadeAnim) : Spinner :=
  match a.completion with
  | some cb => stop cb acc
  | none => acc

/-- All in-flight fade animations run to completion: each modifier's
opacity reaches its target, and each attached completion callback runs
once. -/
def finishAnims (s : Spinner) : Spinner :=
  s.anims.foldl runCompletion
    { s with rotateOps := s.anims.map FadeAnim.target, anims := [] }

/-- Argument shapes of `fade` (Spinner.js line 103): called with a single
argument (the callback) or with a duration and a callback. -/
inductive FadeArgs where
  | one (cb : Bool)
  | two (dur : ℕ) (cb : Bool)
  deriving DecidableEq, Repr

/-- Argument resolution of `fade` (Spinner.js lines 104-107): with one
argument, that argument is the callback and the duration is
`this.options.fadeDuration`; with two, the first is the duration. -/
def resolveFadeArgs (s : Spinner) : FadeArgs → ℕ × Bool
  | FadeArgs.one cb => (s.fadeDuration, cb)
  | FadeArgs.two dur cb => (dur, cb)

/-- `fade` as invoked (Spinner.js lines 103-116): resolve the arguments,
then run the fade body. -/
def fadeCall (s : Spinner) (a : FadeArgs) : Spinner :=
  fade (resolveFadeArgs s a).1 (resolveFadeArgs s a).2 s

/-- The spinner after `start()` and `t` firings of the interval callback. -/
def runB (n t : ℕ) : Spinner := fireTick^[t] (start (mkSpinner n))

end WidgetB

namespace WidgetA

theorem rotateShift_eq_rotate (l : List Tick) : rotateShift l = l.rotate 1 := by
  cases l with
  | nil => rfl
  | cons x xs => simp [rotateShift, List.rotate_cons_succ]

theorem length_reassignOpacities (n : ℕ) : ∀ (k : ℕ) (l : List Tick),
    (reassignOpacities n k l).length = l.length
  | _, [] => rfl
  | k, tk :: rest => by
      simp [reassignOpacities, length_reassignOpacities n (k+1) rest]

theorem getElem?_reassignOpacities (n : ℕ) : ∀ (k i : ℕ) (l : List Tick),
    (reassignOpacities n k l)[i]? =
      l[i]?.map (fun tk => { tk with opacity := tickOpacity (k + i) n })
  | _, _, [] => by simp [reassignOpacities]
  | k, 0, tk :: rest => by simp [reassignOpacities]
  | k, i+1, tk :: rest => by
      have h : k + 1 + i = k + (i + 1) := by omega
      simp only [reassignOpacities, List.getElem?_cons_succ,
        getElem?_reassignOpacities n (k+1) i rest, h]

theorem runA_succ (n t : ℕ) : runA n (t+1) = fireTick (runA n t) :=
  Function.iterate_succ_apply' fireTick t (start (mkSpinner n))

/-- Run invariant of the part_000 spinner: while running, exactly one
timeout is pending, and after `t` ticks the element at list position `i`
is the element constructed with index `(i + t) % n`, carrying its fixed
angle, while the opacity at position `i` is always `tickOpacity i n`. -/
theorem runA_spec (n t : ℕ) :
    (runA n t).ticks = n ∧ (runA n t).spinnerState = true ∧
    (runA n t).pending = 1 ∧ (runA n t).mods.length = n ∧
    ∀ i : ℕ, (runA n t).mods[i]? =
      if i < n then
        some (⟨(i + t) % n, angleDeg n ((i + t) % n), tickOpacity i n⟩ : Tick)
      else none := by
  induction t with
  | zero =>
    refine ⟨rfl, rfl, rfl, by simp [runA, start, mkSpinner], ?_⟩
    intro i
    show ((List.range n).map (initTick n))[i]? = _
    rw [List.getElem?_map]
    by_cases h : i < n
    · simp [List.getElem?_range h, initTick, h, Nat.mod_eq_of_lt h]
    · rw [List.getElem?_eq_none (by simpa using Nat.le_of_not_lt h)]
      simp [h]
  | succ t ih =>
    obtain ⟨hticks, hstate, hpend, hlen, hget⟩ := ih
    rw [runA_succ]
    rw [fireTick, if_neg (by omega)]
    refine ⟨hticks, hstate, by simp [hpend, hstate], ?_, ?_⟩
    · simpa [length_reassignOpacities, rotateShift_eq_rotate] using hlen
    · intro i
      simp only [getElem?_reassignOpacities, rotateShift_eq_rotate]
      by_cases h : i < n
      · have hn : 0 < n := by omega
        rw [List.getElem?_rotate (by omega), hlen, hget ((i + 1) % n),
          if_pos (Nat.mod_lt _ hn)]
        have harith : ((i + 1) % n + t) % n = (i + (t + 1)) % n := by
          rw [Nat.mod_add_mod]
          congr 1
          omega
        simp [if_pos h, harith, hticks]
      · rw [List.getElem?_eq_none (by simp [hlen, Nat.le_of_not_lt h])]
        simp [h]

end WidgetA

namespace WidgetB

theorem runB_succ (n t : ℕ) : runB n (t+1) = fireTick (runB n t) :=
  Function.iterate_succ_apply' fireTick t (start (mkSpinner n))

/-- Closed form of the Spinner.js run: after `start()` and `t` interval
firings, exactly one interval (handle 0) is live with closure counter
`t`, and the spin-line opacities show phase `t - 1` (the first firing
re-applies phase 0, which is also the construction state). -/
theorem runB_spec (n t : ℕ) :
    runB n t =
      { lines := n
        fadeDuration := 1000
        spinLineOps := (List.range n).map (fun i => spinLineOpacity i (t-1) n)
        rotateOps := List.replicate n 1
        rotations := (List.range n).map (rotationOfPi n)
        intervals := [⟨0, t, n⟩]
        spinInterval := some 0
        nextHandle := 1
        cbCount := 0
        anims := [] } := by
  induction t with
  | zero => simp [runB, start, mkSpinner]
  | succ t ih =>
    rw [runB_succ, ih]
    simp [fireTick, List.find?]

/-- Index arithmetic behind the cyclic-shift property of the phase
formula. -/
theorem sub_mod_shift (n t p : ℕ) (hp : p < n) :
    (n - (p + t) % n + t) % n = (n - p) % n := by
  have hq : (p + t) % n < n := Nat.mod_lt _ (by omega)
  have hmod : (p + t) % n ≡ p + t [MOD n] := Nat.mod_modEq (p + t) n
  generalize hqe : (p + t) % n = q at hq hmod
  have h4 : (n - q + t) + (q + p) ≡ (n - p) + (q + p) [MOD n] := by
    have h1 : (n - q + t) + (q + p) = (n + p) + t := by omega
    have h2 : (n - p) + (q + p) = n + q := by omega
    rw [h1, h2]
    calc (n + p) + t = n + (p + t) := by omega
      _ ≡ n + q [MOD n] := Nat.ModEq.add_left n hmod.symm
  exact Nat.ModEq.add_right_cancel' _ h4

/-- The phase-`t` gradient is the phase-0 gradient advanced by `t`
positions around the ring. -/
theorem spinLineOpacity_shift (n t p : ℕ) (hp : p < n) :
    spinLineOpacity ((p + t) % n) t n = spinLineOpacity p 0 n := by
  unfold spinLineOpacity
  simp only [Nat.add_zero]
  rw [sub_mod_shift n t p hp]

/-- At phase 0, spin line 0 has full opacity 1. -/
theorem spinLineOpacity_zero (n : ℕ) : spinLineOpacity 0 0 n = 1 := by
  unfold spinLineOpacity
  simp [Nat.mod_self]
  norm_num

/-- For indices `1 ≤ k < n` the phase-0 formula simplifies to
`(k/n)² · 0.9 + 0.1`. -/
theorem spinLineOpacity_eq_of_pos (n k : ℕ) (h1 : 1 ≤ k) (hk : k < n) :
    spinLineOpacity k 0 n
      = ((k : ℚ) / (n : ℚ)) * ((k : ℚ) / (n : ℚ)) * (9/10) + 1/10 := by
  have hnq : ((n : ℚ)) ≠ 0 := by exact_mod_cast (by omega : n ≠ 0)
  have hmod : (n - k + 0) % n = n - k := by
    rw [Nat.add_zero]
    exact Nat.mod_eq_of_lt (by omega)
  have hcast : ((n - k : ℕ) : ℚ) = (n : ℚ) - (k : ℚ) := Nat.cast_sub (le_of_lt hk)
  unfold spinLineOpacity
  rw [hmod, hcast]
  have hfrac : (1 : ℚ) - ((n : ℚ) - (k : ℚ)) / (n : ℚ) = (k : ℚ) / (n : ℚ) := by
    field_simp
  rw [hfrac]

/-- The phase-0 gradient is strictly increasing on indices `1..n-1`. -/
theorem spinLineOpacity_lt (n i j : ℕ) (h1 : 1 ≤ i) (hij : i < j) (hj : j < n) :
    spinLineOpacity i 0 n < spinLineOpacity j 0 n := by
  have hn : (0 : ℚ) < (n : ℚ) := by exact_mod_cast (by omega : 0 < n)
  rw [spinLineOpacity_eq_of_pos n i h1 (by omega),
    spinLineOpacity_eq_of_pos n j (by omega) hj]
  have hfrac : (i : ℚ) / (n : ℚ) < (j : ℚ) / (n : ℚ) :=
    (div_lt_div_iff_of_pos_right hn).mpr (by exact_mod_cast hij)
  have h0 : (0 : ℚ) ≤ (i : ℚ) / (n : ℚ) := by positivity
  have hsq := mul_self_lt_mul_self h0 hfrac
  linarith

/-- An interval tick is a complete no-op when the tracked handle has no
live interval registration. -/
theorem fireTick_no_interval (s : Spinner)
    (hcond : ∀ h, s.spinInterval = some h →
      s.intervals.find? (fun itv => itv.handle == h) = none) :
    fireTick s = s := by
  unfold fireTick
  cases hsi : s.spinInterval with
  | none => rfl
  | some h =>
    dsimp only
    rw [hcond h hsi]

/-- Distinct spin lines receive distinct rotation coefficients. -/
theorem rotationOfPi_injective (n i j : ℕ) (hn : 0 < n) (hij : i ≠ j) :
    rotationOfPi n i ≠ rotationOfPi n j := by
  unfold rotationOfPi
  intro h
  have hnq : ((n : ℚ)) ≠ 0 := by exact_mod_cast hn.ne'
  field_simp at h
  exact hij (by exact_mod_cast h)

end WidgetB

namespace WidgetA

/-- A-variant opacity gradient is strictly increasing in the index. -/
theorem tickOpacity_lt (n i j : ℕ) (hij : i < j) (hj : j < n) :
    tickOpacity i n < tickOpacity j n := by
  have hn : (0 : ℚ) < (n : ℚ) := by exact_mod_cast (by omega : 0 < n)
  unfold tickOpacity
  have : (i : ℚ) / (n : ℚ) < (j : ℚ) / (n : ℚ) :=
    (div_lt_div_iff_of_pos_right hn).mpr (by exact_mod_cast hij)
  linarith

/-- Distinct ticks sit at distinct angular positions `i * (360/n)`. -/
theorem angleDeg_injective (n i j : ℕ) (hn : 0 < n) (hij : i ≠ j) :
    angleDeg n i ≠ angleDeg n j := by
  unfold angleDeg
  intro h
  have h360 : (360 / (n : ℚ)) ≠ 0 := by
    have : ((n : ℚ)) ≠ 0 := by exact_mod_cast hn.ne'
    positivity
  exact hij (by exact_mod_cast mul_left_cancel₀ h360 h)

end WidgetA

theorem find?_eq_of_getElem? {α : Type} (pred : α → Bool) :
    ∀ (l : List α) (p : ℕ) (a : α), l[p]? = some a → pred a = true →
      (∀ q, q < p → ∀ b, l[q]? = some b → pred b = false) →
      l.find? pred = some a
  | [], p, a, h, _, _ => by simp at h
  | x :: xs, 0, a, h, hpa, _ => by
      simp only [List.getElem?_cons_zero, Option.some.injEq] at h
      subst h
      exact List.find?_cons_of_pos xs hpa
  | x :: xs, p+1, a, h, hpa, hprev => by
      have hx : pred x = false := hprev 0 (by omega) x (by simp)
      rw [List.find?_cons_of_neg xs (by simp [hx])]
      exact find?_eq_of_getElem? pred xs p a (by simpa using h) hpa
        (fun q hq b hb => hprev (q+1) (by omega) b (by simpa using hb))

/-- C3: the call sequence start() immediately followed by stop(), with no
scheduler tick firing in between, leaves every tick element's opacity
equal to its construction-time value, in both widgets. -/
theorem C3_start_stop_opacities_unchanged (n : ℕ) :
    (WidgetA.stop (WidgetA.start (WidgetA.mkSpinner n))).mods
        = (WidgetA.mkSpinner n).mods
    ∧ (WidgetB.stop false (WidgetB.start (WidgetB.mkSpinner n))).spinLineOps
        = (WidgetB.mkSpinner n).spinLineOps
    ∧ (WidgetB.stop false (WidgetB.start (WidgetB.mkSpinner n))).rotateOps
        = (WidgetB.mkSpinner n).rotateOps :=
  ⟨rfl, rfl, rfl⟩

/-- C5: for N > 0, construction creates exactly N tick elements — one per
index, attached once each in construction order — whose angular
positions `i * (360/N)` (first widget) and rotation coefficients
`2πi/N` (second widget) are pairwise distinct. -/
theorem C5_construction_elements (n : ℕ) (hn : 0 < n) :
    (WidgetA.mkSpinner n).mods.length = n
    ∧ (WidgetA.mkSpinner n).mods.map WidgetA.Tick.idx = List.range n
    ∧ (WidgetA.mkSpinner n).mods.map WidgetA.Tick.angle
        = (List.range n).map (WidgetA.angleDeg n)
    ∧ (∀ i j, i < n → j < n → i ≠ j →
        WidgetA.angleDeg n i ≠ WidgetA.angleDeg n j)
    ∧ (WidgetB.mkSpinner n).spinLineOps.length = n
    ∧ (WidgetB.mkSpinner n).rotations.length = n
    ∧ (∀ i j, i ≠ j → WidgetB.rotationOfPi n i ≠ WidgetB.rotationOfPi n j) := by
  refine ⟨by simp [WidgetA.mkSpinner], ?_, ?_, ?_,
    by simp [WidgetB.mkSpinner], by simp [WidgetB.mkSpinner], ?_⟩
  · have h : WidgetA.Tick.idx ∘ WidgetA.initTick n = id := funext fun i => rfl
    simp [WidgetA.mkSpinner, List.map_map, h]
  · have h : WidgetA.Tick.angle ∘ WidgetA.initTick n = WidgetA.angleDeg n :=
      funext fun i => rfl
    simp [WidgetA.mkSpinner, List.map_map, h]
  · exact fun i j _ _ hij => WidgetA.angleDeg_injective n i j hn hij
  · exact fun i j hij => WidgetB.rotationOfPi_injective n i j hn hij

/-- C7: reset restores every spin-line opacity to its initial value and
every rotate modifier to opacity 1 (initial visibility), then stops the
widget and invokes the callback, no matter how many ticks elapsed. -/
theorem C7_reset_restores_initial (n t : ℕ) (cb : Bool) :
    (WidgetB.reset cb (WidgetB.runB n t)).spinLineOps
        = (WidgetB.mkSpinner n).spinLineOps
    ∧ (WidgetB.reset cb (WidgetB.runB n t)).rotateOps
        = (WidgetB.mkSpinner n).rotateOps
    ∧ (WidgetB.reset cb (WidgetB.runB n t)).intervals = []
    ∧ (WidgetB.reset cb (WidgetB.runB n t)).cbCount
        = (WidgetB.runB n t).cbCount + (if cb then 1 else 0) := by
  rw [WidgetB.runB_spec]
  refine ⟨?_, ?_, ?_, ?_⟩ <;>
    simp [WidgetB.reset, WidgetB.stop, WidgetB.mkSpinner]

/-- C9: calling start() while already running leaks a second concurrent
timer: after two start() calls two interval registrations are live, and
stop() cancels only the most recently created handle, leaving the first
interval running (in the first widget, stop cancels nothing and both
pending self-rescheduling timeout chains remain). -/
theorem C9_double_start_leaks_timer (n : ℕ) :
    (WidgetB.start (WidgetB.start (WidgetB.mkSpinner n))).intervals.map
        WidgetB.Interval.handle = [0, 1]
    ∧ (WidgetB.start (WidgetB.start (WidgetB.mkSpinner n))).spinInterval = some 1
    ∧ (WidgetB.stop false
        (WidgetB.start (WidgetB.start (WidgetB.mkSpinner n)))).intervals.map
        WidgetB.Interval.handle = [0]
    ∧ (∀ s : WidgetA.Spinner,
        (WidgetA.start (WidgetA.start s)).pending = s.pending + 2
        ∧ (WidgetA.stop (WidgetA.start (WidgetA.start s))).pending
            = s.pending + 2) := by
  refine ⟨?_, rfl, ?_, fun s => ⟨rfl, rfl⟩⟩
  · simp [WidgetB.start, WidgetB.mkSpinner]
  · simp [WidgetB.stop, WidgetB.start, WidgetB.mkSpinner]

/-- C10: fade called with a single argument treats that argument as the
completion callback and uses options.fadeDuration (default 1000 ms) as
the duration; the two-argument form uses its first argument as the
duration. -/
theorem C10_fade_argument_resolution :
    (∀ (s : WidgetB.Spinner) (cb : Bool),
      WidgetB.resolveFadeArgs s (WidgetB.FadeArgs.one cb) = (s.fadeDuration, cb))
    ∧ (∀ (s : WidgetB.Spinner) (d : ℕ) (cb : Bool),
      WidgetB.resolveFadeArgs s (WidgetB.FadeArgs.two d cb) = (d, cb))
    ∧ (∀ n : ℕ, (WidgetB.mkSpinner n).fadeDuration = 1000)
    ∧ (∀ (s : WidgetB.Spinner) (a : WidgetB.FadeArgs),
      WidgetB.fadeCall s a
        = WidgetB.fade (WidgetB.resolveFadeArgs s a).1
            (WidgetB.resolveFadeArgs s a).2 s) :=
  ⟨fun _ _ => rfl, fun _ _ _ => rfl, fun _ => rfl, fun _ _ => rfl⟩

/-- C5 witness at the default configuration N = 12. -/
theorem C5_construction_elements_witness :
    (WidgetA.mkSpinner 12).mods.length = 12
    ∧ (WidgetA.mkSpinner 12).mods.map WidgetA.Tick.idx = List.range 12
    ∧ (WidgetA.mkSpinner 12).mods.map WidgetA.Tick.angle
        = (List.range 12).map (WidgetA.angleDeg 12)
    ∧ (∀ i j, i < 12 → j < 12 → i ≠ j →
        WidgetA.angleDeg 12 i ≠ WidgetA.angleDeg 12 j)
    ∧ (WidgetB.mkSpinner 12).spinLineOps.length = 12
    ∧ (WidgetB.mkSpinner 12).rotations.length = 12
    ∧ (∀ i j, i ≠ j → WidgetB.rotationOfPi 12 i ≠ WidgetB.rotationOfPi 12 j) :=
  C5_construction_elements 12 (by decide)

/-- C1 fails as stated: with the default 12 ticks, one scheduler tick
assigns opacity 0.1 to the element now at list position 0, while the
opacity previously held by the element at list position 1 was
1/12 + 0.1; the two differ. -/
theorem C1_counterexample :
    (WidgetA.fireTick (WidgetA.start (WidgetA.mkSpinner 12))).mods[0]?.map
        WidgetA.Tick.opacity = some (1/10)
    ∧ (WidgetA.start (WidgetA.mkSpinner 12)).mods[1]?.map
        WidgetA.Tick.opacity = some (1/12 + 1/10)
    ∧ ((1 : ℚ)/10) ≠ 1/12 + 1/10 := by
  have h1 := (WidgetA.runA_spec 12 1).2.2.2.2 0
  have h0 := (WidgetA.runA_spec 12 0).2.2.2.2 1
  have e1 : WidgetA.fireTick (WidgetA.start (WidgetA.mkSpinner 12))
      = WidgetA.runA 12 1 := rfl
  have e0 : WidgetA.start (WidgetA.mkSpinner 12) = WidgetA.runA 12 0 := rfl
  refine ⟨?_, ?_, by norm_num⟩
  · rw [e1, h1]
    norm_num [WidgetA.tickOpacity]
  · rw [e0, h0]
    norm_num [WidgetA.tickOpacity]

/-- C1 (amended): one scheduler tick advances the rotation by exactly one
angular step in the rotate-the-list sense actually implemented: the
element previously at list position 1 moves to list position 0, and the
opacity it is assigned there equals the opacity previously held at list
position 0 (the positional opacity sequence is reassigned unchanged while
every element moves back one position). -/
theorem C1_one_tick_step (n : ℕ) (hn : 2 ≤ n) :
    (WidgetA.fireTick (WidgetA.start (WidgetA.mkSpinner n))).mods[0]?.map
        WidgetA.Tick.idx
      = (WidgetA.start (WidgetA.mkSpinner n)).mods[1]?.map WidgetA.Tick.idx
    ∧ (WidgetA.fireTick (WidgetA.start (WidgetA.mkSpinner n))).mods[0]?.map
        WidgetA.Tick.opacity
      = (WidgetA.start (WidgetA.mkSpinner n)).mods[0]?.map
          WidgetA.Tick.opacity := by
  have h1 := (WidgetA.runA_spec n 1).2.2.2.2 0
  have h01 := (WidgetA.runA_spec n 0).2.2.2.2 1
  have h00 := (WidgetA.runA_spec n 0).2.2.2.2 0
  have e1 : WidgetA.fireTick (WidgetA.start (WidgetA.mkSpinner n))
      = WidgetA.runA n 1 := rfl
  have e0 : WidgetA.start (WidgetA.mkSpinner n) = WidgetA.runA n 0 := rfl
  rw [e1, e0, h1, h01, h00]
  have hn0 : (0 : ℕ) < n := by omega
  have hn1 : (1 : ℕ) < n := by omega
  rw [if_pos hn0, if_pos hn1, if_pos hn0]
  have hmod : (1 : ℕ) % n = 1 := Nat.mod_eq_of_lt hn1
  constructor
  · simp [hmod]
  · simp

/-- C1 witness at the default configuration N = 12. -/
theorem C1_one_tick_step_witness :
    (WidgetA.fireTick (WidgetA.start (WidgetA.mkSpinner 12))).mods[0]?.map
        WidgetA.Tick.idx
      = (WidgetA.start (WidgetA.mkSpinner 12)).mods[1]?.map WidgetA.Tick.idx
    ∧ (WidgetA.fireTick (WidgetA.start (WidgetA.mkSpinner 12))).mods[0]?.map
        WidgetA.Tick.opacity
      = (WidgetA.start (WidgetA.mkSpinner 12)).mods[0]?.map
          WidgetA.Tick.opacity :=
  C1_one_tick_step 12 (by decide)

/-- C2 fails as stated on the first widget: after start() then stop(),
the already-scheduled timer callback still fires and changes element 0's
opacity from 0.1 to 2/3 + 0.1 — stop neither cancels the pending timeout
nor guards the mutation (only the rescheduling is guarded). -/
theorem C2_counterexample :
    WidgetA.opacityOfIdx
        (WidgetA.stop (WidgetA.start (WidgetA.mkSpinner 3))) 0 = some (1/10)
    ∧ WidgetA.opacityOfIdx
        (WidgetA.fireTick (WidgetA.stop (WidgetA.start (WidgetA.mkSpinner 3)))) 0
      = some (2/3 + 1/10)
    ∧ some ((1 : ℚ)/10) ≠ some (2/3 + 1/10) := by
  refine ⟨?_, ?_, by norm_num⟩ <;>
    simp [WidgetA.opacityOfIdx, WidgetA.fireTick, WidgetA.stop, WidgetA.start,
      WidgetA.mkSpinner, WidgetA.initTick, WidgetA.tickOpacity, WidgetA.rotateShift,
      WidgetA.reassignOpacities, List.range_succ, List.find?]

/-- C2 (amended): stop() is idempotent in both widgets and the scheduler
is never rescheduled after stop: in the second widget a timer tick after
stop() is a complete no-op (the tracked interval was cleared), while in
the first widget one already-scheduled tick may still fire once after
stop() and reassign element opacities, but it does not reschedule — the
pending-timeout count only decreases after stop. -/
theorem C2_stop_semantics :
    (∀ s : WidgetA.Spinner, WidgetA.stop (WidgetA.stop s) = WidgetA.stop s)
    ∧ (∀ s : WidgetA.Spinner,
        (WidgetA.fireTick (WidgetA.stop s)).pending
          = (WidgetA.stop s).pending - 1)
    ∧ (∀ s : WidgetB.Spinner,
        WidgetB.stop false (WidgetB.stop false s) = WidgetB.stop false s)
    ∧ (∀ s : WidgetB.Spinner,
        WidgetB.fireTick (WidgetB.stop false s) = WidgetB.stop false s) := by
  refine ⟨fun s => rfl, fun s => ?_, fun s => ?_, fun s => ?_⟩
  · by_cases h : s.pending = 0
    · simp [WidgetA.fireTick, WidgetA.stop, h]
    · simp [WidgetA.fireTick, WidgetA.stop, h]
  · cases hsi : s.spinInterval with
    | none => simp [WidgetB.stop, hsi]
    | some h => simp [WidgetB.stop, hsi, List.filter_filter]
  · refine WidgetB.fireTick_no_interval _ ?_
    intro h2 hh2
    have hs2 : s.spinInterval = some h2 := hh2
    apply List.find?_eq_none.mpr
    intro a ha
    have hmem : a ∈ s.intervals.filter (fun itv => itv.handle ≠ h2) := by
      simpa [WidgetB.stop, hs2] using ha
    have hne : a.handle ≠ h2 := by
      simpa using (List.mem_filter.mp hmem).2
    simpa using hne

namespace WidgetA

theorem mod_add_ne (n t q p : ℕ) (hq : q < n) (hp : p < n) (hne : q ≠ p) :
    (q + t) % n ≠ (p + t) % n := by
  intro heq
  have hmq : q + t ≡ p + t [MOD n] := heq
  have hqp : q ≡ p [MOD n] := Nat.ModEq.add_right_cancel' t hmq
  have h1 : q % n = p % n := hqp
  rw [Nat.mod_eq_of_lt hq, Nat.mod_eq_of_lt hp] at h1
  exact hne h1

/-- After `t` ticks the element constructed with index `(p + t) % n` —
sitting at its fixed angular position — displays the opacity that the
gradient initially assigned to index `p`: the visible gradient is the
initial one advanced by `t` steps around the ring. -/
theorem opacityOfIdx_runA (n t p : ℕ) (hp : p < n) :
    opacityOfIdx (runA n t) ((p + t) % n) = some (tickOpacity p n) := by
  obtain ⟨-, -, -, hlen, hget⟩ := runA_spec n t
  have hptk := hget p
  rw [if_pos hp] at hptk
  unfold opacityOfIdx
  rw [find?_eq_of_getElem? _ (runA n t).mods p _ hptk (by simp) ?_]
  · rfl
  · intro q hq b hb
    have hqn : q < n := by omega
    have hbq := hget q
    rw [if_pos hqn] at hbq
    have hbeq := Option.some.inj (hb.symm.trans hbq)
    subst hbeq
    simpa using mod_add_ne n t q p hqn hp (by omega)

end WidgetA

/-- C4 fails as stated: in the second widget with 4 ticks, after exactly
one elapsed scheduler tick the displayed sequence equals the initial
gradient (a cyclic shift by 0, because the first tick re-applies phase
0), and the initial gradient differs from both of its cyclic shifts by
one, so the displayed sequence is not a cyclic shift by t = 1. -/
theorem C4_counterexample :
    (WidgetB.mkSpinner 4).spinLineOps = [1, 5/32, 13/40, 97/160]
    ∧ (WidgetB.fireTick (WidgetB.start (WidgetB.mkSpinner 4))).spinLineOps
        = [1, 5/32, 13/40, 97/160]
    ∧ ([1, 5/32, 13/40, 97/160] : List ℚ) ≠ [5/32, 13/40, 97/160, 1]
    ∧ ([1, 5/32, 13/40, 97/160] : List ℚ) ≠ [97/160, 1, 5/32, 13/40] := by
  refine ⟨?_, ?_, by norm_num, by norm_num⟩ <;>
    norm_num [WidgetB.mkSpinner, WidgetB.spinLineOpacity, WidgetB.start,
      WidgetB.fireTick, List.range_succ, List.find?]

/-- C4 (amended): at every instant the displayed opacities are a cyclic
permutation of the initial gradient, but the shift after t elapsed ticks
is exactly t only in the first widget (the gradient value initially at
index p appears at index (p + t) % n); in the second widget the first
tick re-applies phase 0, so after t ≥ 1 ticks the displayed sequence is
the phase-(t−1) gradient and the initial value of position p appears at
position (p + (t−1)) % n. -/
theorem C4_cyclic_permutation (n t p : ℕ) (hp : p < n) :
    WidgetA.opacityOfIdx (WidgetA.runA n t) ((p + t) % n)
      = some (WidgetA.tickOpacity p n)
    ∧ (1 ≤ t → (WidgetB.runB n t).spinLineOps
        = (List.range n).map (fun i => WidgetB.spinLineOpacity i (t-1) n))
    ∧ (1 ≤ t → (WidgetB.runB n t).spinLineOps[(p + (t-1)) % n]?
        = some (WidgetB.spinLineOpacity p 0 n)) := by
  refine ⟨WidgetA.opacityOfIdx_runA n t p hp, ?_, ?_⟩
  · intro ht
    rw [WidgetB.runB_spec]
  · intro ht
    rw [WidgetB.runB_spec]
    have hlt : (p + (t-1)) % n < n := Nat.mod_lt _ (by omega)
    dsimp only
    rw [List.getElem?_map, List.getElem?_range hlt, Option.map_some',
      WidgetB.spinLineOpacity_shift n (t-1) p hp]

/-- C4 witness at N = 4, t = 2, p = 1. -/
theorem C4_cyclic_permutation_witness :
    WidgetA.opacityOfIdx (WidgetA.runA 4 2) ((1 + 2) % 4)
      = some (WidgetA.tickOpacity 1 4)
    ∧ (1 ≤ 2 → (WidgetB.runB 4 2).spinLineOps
        = (List.range 4).map (fun i => WidgetB.spinLineOpacity i (2-1) 4))
    ∧ (1 ≤ 2 → (WidgetB.runB 4 2).spinLineOps[(1 + (2-1)) % 4]?
        = some (WidgetB.spinLineOpacity 1 0 4)) :=
  C4_cyclic_permutation 4 2 1 (by decide)

/-- C6 fails as stated: variant B's initial sequence is not monotonic —
for N = 4 it reads [1, 5/32, 13/40, …], which decreases from index 0 to
index 1 and then increases from index 1 to index 2. -/
theorem C6_counterexample :
    (WidgetB.mkSpinner 4).spinLineOps[0]? = some 1
    ∧ (WidgetB.mkSpinner 4).spinLineOps[1]? = some (5/32)
    ∧ (WidgetB.mkSpinner 4).spinLineOps[2]? = some (13/40)
    ∧ ¬ ((1 : ℚ) ≤ 5/32)
    ∧ ¬ ((13/40 : ℚ) ≤ 5/32) := by
  refine ⟨?_, ?_, ?_, by norm_num, by norm_num⟩ <;>
    norm_num [WidgetB.mkSpinner, WidgetB.spinLineOpacity, List.range_succ]

/-- C6 (amended): the initial opacity of tick i is i/N + 0.1 in variant A
and pos² × 0.9 + 0.1 with pos = 1 − ((N − i) mod N)/N in variant B; for
N = 4 variant A yields [0.1, 0.35, 0.6, 0.85]; variant A's sequence is
strictly increasing, while variant B's is strictly increasing only on
indices 1..N−1 and attains its maximum 1 at index 0 (a cyclic
faint-to-full gradient, not monotone over 0..N−1). -/
theorem C6_initial_gradient (n i j : ℕ) (hij : i < j) (hj : j < n) :
    (WidgetA.mkSpinner n).mods[i]?.map WidgetA.Tick.opacity
        = some ((i : ℚ) / (n : ℚ) + 1/10)
    ∧ (WidgetB.mkSpinner n).spinLineOps[i]?
        = some (WidgetB.spinLineOpacity i 0 n)
    ∧ WidgetA.tickOpacity i n < WidgetA.tickOpacity j n
    ∧ (1 ≤ i → WidgetB.spinLineOpacity i 0 n < WidgetB.spinLineOpacity j 0 n)
    ∧ WidgetB.spinLineOpacity 0 0 n = 1
    ∧ (WidgetA.mkSpinner 4).mods.map WidgetA.Tick.opacity
        = [1/10, 35/100, 6/10, 85/100] := by
  have hi : i < n := by omega
  refine ⟨?_, ?_, WidgetA.tickOpacity_lt n i j hij hj,
    fun h1 => WidgetB.spinLineOpacity_lt n i j h1 hij hj,
    WidgetB.spinLineOpacity_zero n, ?_⟩
  · simp [WidgetA.mkSpinner, List.getElem?_map, List.getElem?_range hi,
      WidgetA.initTick, WidgetA.tickOpacity]
  · simp [WidgetB.mkSpinner, List.getElem?_map, List.getElem?_range hi]
  · norm_num [WidgetA.mkSpinner, WidgetA.initTick, WidgetA.tickOpacity,
      List.range_succ]

/-- C6 witness at N = 5, i = 1, j = 3. -/
theorem C6_initial_gradient_witness :
    (WidgetA.mkSpinner 5).mods[1]?.map WidgetA.Tick.opacity
        = some ((1 : ℚ) / (5 : ℚ) + 1/10)
    ∧ (WidgetB.mkSpinner 5).spinLineOps[1]?
        = some (WidgetB.spinLineOpacity 1 0 5)
    ∧ WidgetA.tickOpacity 1 5 < WidgetA.tickOpacity 3 5
    ∧ (1 ≤ 1 → WidgetB.spinLineOpacity 1 0 5 < WidgetB.spinLineOpacity 3 0 5)
    ∧ WidgetB.spinLineOpacity 0 0 5 = 1
    ∧ (WidgetA.mkSpinner 4).mods.map WidgetA.Tick.opacity
        = [1/10, 35/100, 6/10, 85/100] :=
  C6_initial_gradient 5 1 3 (by decide) (by decide)

namespace WidgetB

theorem runCompletion_rotateOps (acc : Spinner) (a : FadeAnim) :
    (runCompletion acc a).rotateOps = acc.rotateOps := by
  cases h : a.completion <;> simp [runCompletion, h, stop]

theorem foldl_runCompletion_rotateOps :
    ∀ (l : List FadeAnim) (acc : Spinner),
      (l.foldl runCompletion acc).rotateOps = acc.rotateOps
  | [], _ => rfl
  | a :: rest, acc => by
      rw [List.foldl_cons, foldl_runCompletion_rotateOps rest,
        runCompletion_rotateOps]

theorem foldl_runCompletion_of_none :
    ∀ (l : List FadeAnim) (acc : Spinner),
      (∀ a ∈ l, a.completion = none) → l.foldl runCompletion acc = acc
  | [], _, _ => rfl
  | a :: rest, acc, h => by
      have ha : a.completion = none := h a (by simp)
      rw [List.foldl_cons,
        show runCompletion acc a = acc from by simp [runCompletion, ha]]
      exact foldl_runCompletion_of_none rest acc (fun b hb => h b (by simp [hb]))

end WidgetB

/-- C8: fade(duration, cb) animates every rotate modifier's opacity to 0
over the given duration, and the stop-invoking completion callback is
attached only to the animation of index 0, so after all animations
complete every opacity is 0 and the callback has been invoked exactly
once, not N times. -/
theorem C8_fade_single_completion (n dur : ℕ) (cb : Bool) (hn : 1 ≤ n) :
    (WidgetB.fade dur cb (WidgetB.mkSpinner n)).anims.length = n
    ∧ (∀ a ∈ (WidgetB.fade dur cb (WidgetB.mkSpinner n)).anims,
        a.target = 0 ∧ a.duration = dur)
    ∧ (∀ i a, (WidgetB.fade dur cb (WidgetB.mkSpinner n)).anims[i]? = some a →
        (a.completion.isSome ↔ i = 0))
    ∧ ((WidgetB.fade dur cb (WidgetB.mkSpinner n)).anims.filter
        (fun a => a.completion.isSome)).length = 1
    ∧ (WidgetB.finishAnims (WidgetB.fade dur cb (WidgetB.mkSpinner n))).rotateOps
        = List.replicate n 0
    ∧ (WidgetB.finishAnims (WidgetB.fade dur cb (WidgetB.mkSpinner n))).cbCount
        = (if cb then 1 else 0) := by
  have hanims : (WidgetB.fade dur cb (WidgetB.mkSpinner n)).anims
      = (List.range n).map
          (fun i => (⟨0, dur, if i = 0 then some cb else none⟩ : WidgetB.FadeAnim)) := by
    simp [WidgetB.fade, WidgetB.mkSpinner]
  refine ⟨?_, ?_, ?_, ?_, ?_, ?_⟩
  · simp [hanims]
  · intro a ha
    rw [hanims] at ha
    simp only [List.mem_map, List.mem_range] at ha
    obtain ⟨i, -, rfl⟩ := ha
    exact ⟨rfl, rfl⟩
  · intro i a ha
    rw [hanims] at ha
    by_cases hi : i < n
    · rw [List.getElem?_map, List.getElem?_range hi, Option.map_some'] at ha
      have := Option.some.inj ha
      subst this
      cases i <;> simp
    · rw [List.getElem?_eq_none (by simpa using Nat.le_of_not_lt hi)] at ha
      cases ha
  · rw [hanims, List.filter_map, List.length_map]
    have hpg : ((fun a : WidgetB.FadeAnim => a.completion.isSome) ∘
        (fun i => (⟨0, dur, if i = 0 then some cb else none⟩ : WidgetB.FadeAnim)))
        = (fun i => i == 0) := by
      funext i
      cases i <;> simp
    rw [hpg, ← List.countP_eq_length_filter]
    have hcount : List.countP (fun i => i == 0) (List.range n)
        = List.count 0 (List.range n) := rfl
    rw [hcount,
      List.count_eq_one_of_mem (List.nodup_range n)
        (by simp only [List.mem_range]; omega)]
  · unfold WidgetB.finishAnims
    rw [WidgetB.foldl_runCompletion_rotateOps]
    rw [hanims]
    simp only [List.map_map]
    have : (WidgetB.FadeAnim.target ∘
        (fun i => (⟨0, dur, if i = 0 then some cb else none⟩ : WidgetB.FadeAnim)))
        = (fun _ => (0 : ℚ)) := by
      funext i
      rfl
    rw [this, List.map_const', List.length_range]
  · unfold WidgetB.finishAnims
    obtain ⟨m, rfl⟩ : ∃ m, n = m + 1 := ⟨n - 1, by omega⟩
    rw [hanims]
    rw [List.range_succ_eq_map, List.map_cons, List.foldl_cons]
    have hrest : ∀ a ∈ (List.map Nat.succ (List.range m)).map
        (fun i => (⟨0, dur, if i = 0 then some cb else none⟩ : WidgetB.FadeAnim)),
        a.completion = none := by
      intro a ha
      simp only [List.map_map, List.mem_map, List.mem_range, Function.comp] at ha
      obtain ⟨i, -, rfl⟩ := ha
      simp
    rw [WidgetB.foldl_runCompletion_of_none _ _ hrest]
    simp [WidgetB.runCompletion, WidgetB.stop, WidgetB.fade, WidgetB.mkSpinner]

/-- C8 witness at N = 3, duration 1000, callback provided. -/
theorem C8_fade_single_completion_witness :
    (WidgetB.fade 1000 true (WidgetB.mkSpinner 3)).anims.length = 3
    ∧ (∀ a ∈ (WidgetB.fade 1000 true (WidgetB.mkSpinner 3)).anims,
        a.target = 0 ∧ a.duration = 1000)
    ∧ (∀ i a, (WidgetB.fade 1000 true (WidgetB.mkSpinner 3)).anims[i]? = some a →
        (a.completion.isSome ↔ i = 0))
    ∧ ((WidgetB.fade 1000 true (WidgetB.mkSpinner 3)).anims.filter
        (fun a => a.completion.isSome)).length = 1
    ∧ (WidgetB.finishAnims (WidgetB.fade 1000 true (WidgetB.mkSpinner 3))).rotateOps
        = List.replicate 3 0
    ∧ (WidgetB.finishAnims (WidgetB.fade 1000 true (WidgetB.mkSpinner 3))).cbCount
        = (if true then 1 else 0) :=
  C8_fade_single_completion 3 1000 true (by decide)
